import Mathlib

/-!
Verification of the `verify-dpcm-sdk-js` privacy SDK.

Shallow embedding of the SDK's core logic:

* `StringUtils` (`src/lib/utils/stringUtils.js`): the `has` / `getOrDefault`
  helpers, modelled over a small JavaScript value type so that the exact
  call-site semantics (including loose `!= null` checks, string own-property
  lookup and template-literal stringification of `undefined`) are preserved.
* `Privacy.itemName` (`src/lib/privacy.js`, `getConsentMetadata` lines
  211-221): the request-item key computation.
* `Privacy.assessStatus` (`src/lib/privacy.js`, `assess` lines 133-153):
  the assessment status reducer.
* `DPCMService.processConsentMetadata`
  (`src/lib/services/dpcm/dpcmService.js` lines 141-227, `_buildMetadataRecord`
  lines 325-344): the consent-metadata normalizer, with JavaScript object
  mutation and aliasing between the `records` map and the output lists made
  explicit through positional updates on the emission list.
* The request builders (`requestApproval`, `getConsentMetadata`,
  `storeConsents` in `dpcmService.js`) and the facade error envelopes
  (`privacy.js`, `dpcm.js`).

Failure of a JavaScript property access on `undefined` is modelled with
`Except JsError`; everything is computable so that each theorem can be
evaluated on concrete inputs.
-/

/-- The only runtime error shape the embedded code can raise: a JavaScript
`TypeError` from reading a property of `undefined`. -/
inductive JsError where
  | typeError
deriving Repr, DecidableEq

/-- JavaScript values that can reach `StringUtils` from `privacy.js`:
`undefined` (an absent object field), `null`, or a string. -/
inductive JsValue where
  | undef
  | null
  | str (s : String)
deriving Repr, DecidableEq

/-- Template-literal stringification: `` `${v}` `` renders `undefined` as the
string `"undefined"` and `null` as `"null"`. -/
def jsTemplate : JsValue → String
  | .undef => "undefined"
  | .null => "null"
  | .str s => s

/-- An absent-or-present string field of a JavaScript object, as a `JsValue`
(`none` is an absent field, read as `undefined`). -/
def jsOfField : Option String → JsValue
  | none => .undef
  | some s => .str s

/-- `s.hasOwnProperty(key)` restricted to index properties: for a primitive
string receiver the own properties are the character indices `"0"`, ...,
`"len-1"` and `"length"`; this returns the index when `key` is one of the
index properties. -/
def strIndexProp (s : String) (key : String) : Option Nat :=
  (List.range s.length).find? (fun i => toString i == key)

/-- Source `stringUtils.js` lines 2-4:
`obj.hasOwnProperty(key) && typeof obj[key] == "string" && obj[key].length`,
evaluated at a primitive-string receiver (the only receiver shape reaching it
through `getOrDefault`).  `s["length"]` is a number and any non-index key
yields `undefined`, so the conjunction is true exactly at index properties
(whose values are nonempty one-character strings). -/
def StringUtils.hasOnString (s : String) (key : String) : Bool :=
  (strIndexProp s key).isSome

/-- Source `stringUtils.js` lines 6-8:
`(obj != null && has(obj, key)) ? obj[key] : defaultValue`.
`obj != null` is loose inequality, false for both `null` and `undefined`,
so `has` is reached only with a string receiver. -/
def StringUtils.getOrDefault (obj : JsValue) (key : String)
    (defaultValue : JsValue) : JsValue :=
  match obj with
  | .undef => defaultValue
  | .null => defaultValue
  | .str s =>
    match strIndexProp s key with
    | some i =>
      match s.data.get? i with
      | some c => .str (String.mk [c])
      | none => defaultValue
    | none => defaultValue

/-- `StringUtils.getOrDefault(obj, key, dflt)` specialized to the call sites in
`dpcmService.js` line 212-214, where the receiver is a server JSON object and
the field is either absent (`none`) or a string.  `has` then demands a
present, string-typed, nonempty value. -/
def StringUtils.getStrField (field : Option String) (dflt : String) : String :=
  match field with
  | some s => if s.isEmpty then dflt else s
  | none => dflt

/-- `StringUtils.has(obj, key)` specialized to the constructor call sites in
`privacy.js` lines 49 and 54, where the probed field is either absent or a
string: true iff the field is present and a nonempty string. -/
def StringUtils.hasStrField (field : Option String) : Bool :=
  match field with
  | some s => !s.isEmpty
  | none => false

/-- A caller request item (`items` argument of `Privacy.assess` /
`Privacy.getConsentMetadata`); `none` is an absent field. -/
structure RequestItem where
  purposeId : String
  attributeId : Option String := none
  accessTypeId : Option String := none
deriving Repr, DecidableEq

/-- `privacy.js` lines 216-218: `if (!item['accessTypeId'] ||
item['accessTypeId'] == null) item.accessTypeId = "default";` — the in-place
defaulting of a missing (or empty, both falsy) access type id. -/
def Privacy.defaultAccessType (item : RequestItem) : RequestItem :=
  { item with
    accessTypeId :=
      match item.accessTypeId with
      | none => some "default"
      | some s => if s.isEmpty then some "default" else some s }

/-- `privacy.js` line 220: the key added to `itemNameSet` for one request item,
computed after the in-place `accessTypeId` defaulting.  The source calls
`StringUtils.getOrDefault(item.attributeId, "")` with only two arguments, so
`""` binds the `key` parameter and `defaultValue` is `undefined`. -/
def Privacy.itemName (item : RequestItem) : String :=
  let item := Privacy.defaultAccessType item
  item.purposeId ++ "/"
    ++ jsTemplate (StringUtils.getOrDefault (jsOfField item.attributeId) "" .undef)
    ++ "."
    ++ jsTemplate (StringUtils.getOrDefault (jsOfField item.accessTypeId) "" .undef)

/-- The set of item keys built by `Privacy.getConsentMetadata` (`privacy.js`
lines 212-221), as a list in insertion order (`Set.has` is plain string
equality, so duplicates are irrelevant to membership). -/
def Privacy.itemNameSet (items : List RequestItem) : List String :=
  items.map Privacy.itemName

/-- `result[0].reason` of an assessment entry. -/
structure AssessReason where
  messageId : String
deriving Repr, DecidableEq

/-- One element of an assessment entry's `result` array. -/
structure AssessResultElem where
  approved : Bool
  reason : Option AssessReason := none
deriving Repr, DecidableEq

/-- One entry of the assessment array returned by the data-usage-approval
endpoint; `result` is absent (`none`) when the server omits it. -/
structure AssessEntry where
  result : Option (List AssessResultElem) := none
deriving Repr, DecidableEq

/-- Body of the `for (const ia of assessment)` loop in `privacy.js` lines
134-149, acting on the running `status` variable.  `ia.result[0]` on an empty
array yields `undefined` and the following `.approved` access throws; likewise
`.messageId` on an absent `reason`. -/
def Privacy.assessStep (status : Option String) (ia : AssessEntry) :
    Except JsError (Option String) :=
  match ia.result with
  | none => .ok status
  | some [] => .error .typeError
  | some (r0 :: _) =>
    if r0.approved then
      .ok (if status = none then some "approved" else status)
    else
      match r0.reason with
      | none => .error .typeError
      | some rsn =>
        if rsn.messageId == "CSIBT0033I" then .ok (some "consent") else .ok status

/-- The `for` loop of `privacy.js` lines 134-149 over the whole array. -/
def Privacy.assessLoop (status : Option String) :
    List AssessEntry → Except JsError (Option String)
  | [] => .ok status
  | ia :: rest =>
    match Privacy.assessStep status ia with
    | .ok s => Privacy.assessLoop s rest
    | .error e => .error e

/-- `privacy.js` lines 133-153: the overall assessment status, starting from
`null` and defaulting to `"denied"` after the loop. -/
def Privacy.assessStatus (entries : List AssessEntry) : Except JsError String :=
  match Privacy.assessLoop none entries with
  | .ok none => .ok "denied"
  | .ok (some s) => .ok s
  | .error e => .error e

/-- Stated from claim C2's words, for comparison with `Privacy.assessStep`:
an approved entry sets `"approved"` only if no status was set yet; a
non-approved entry whose `reason.messageId` equals the sentinel assigns
`"consent"` unconditionally; any other entry assigns nothing. -/
def Privacy.claimedStep (status : Option String) (ia : AssessEntry) :
    Option String :=
  match ia.result with
  | some (r0 :: _) =>
    if r0.approved then
      if status = none then some "approved" else status
    else if (match r0.reason with
             | some rsn => rsn.messageId == "CSIBT0033I"
             | none => false) then
      some "consent"
    else status
  | _ => status

/-- Stated from claim C2's words, for comparison with `Privacy.assessStatus`:
a single in-order pass of `Privacy.claimedStep`, defaulting to `"denied"`
when no entry assigned a status. -/
def Privacy.assessStatusClaimed (entries : List AssessEntry) : String :=
  match entries.foldl Privacy.claimedStep none with
  | none => "denied"
  | some s => s

/-- Well-formedness of one assessment entry, as the code's crash-free domain:
a present `result` array is nonempty, and a non-approved first element carries
a `reason`. -/
def AssessEntry.wf (ia : AssessEntry) : Bool :=
  match ia.result with
  | none => true
  | some [] => false
  | some (r0 :: _) => r0.approved || r0.reason.isSome

/-- `response.attributes[id]` entry: an attribute descriptor with a display
name. -/
structure AttrDesc where
  name : String
deriving Repr, DecidableEq

/-- `response.accessTypes[id]` entry: an access-type descriptor with a display
name. -/
structure ATDesc where
  name : String
deriving Repr, DecidableEq

/-- One element of an attribute's (or purpose's) `accessTypes` array in the
server response; `assentUIDefault` / `legalCategory` may be absent. -/
structure AccessTypeEntry where
  id : String
  assentUIDefault : Option Bool := none
  legalCategory : Option Int := none
deriving Repr, DecidableEq

/-- One element of a purpose's `attributes` array in the server response. -/
structure AttributeEntry where
  id : String
  accessTypes : List AccessTypeEntry
deriving Repr, DecidableEq

/-- `purpose.termsOfUse`; `ref` may be absent. -/
structure TermsOfUse where
  ref : Option String := none
deriving Repr, DecidableEq

/-- A purpose descriptor from the data-subject-presentation response.
`attributes := none` is an absent `attributes` field (the code's
`purpose.attributes && Array.isArray(purpose.attributes)` test); note that a
present empty array still selects the attributes branch. -/
structure Purpose where
  id : String
  name : String
  category : String
  attributes : Option (List AttributeEntry) := none
  accessTypes : List AccessTypeEntry := []
  defaultConsentDuration : Option Int := none
  termsOfUse : Option TermsOfUse := none
deriving Repr, DecidableEq

/-- A consent record from the server response.  `attributeId` /
`accessTypeId` may be absent; `status` is the numeric activity indicator
(1 = active) and `state` the consent-type enum. -/
structure ConsentRecord where
  purposeId : String
  attributeId : Option String := none
  accessTypeId : Option String := none
  status : Int
  state : Int
deriving Repr, DecidableEq

/-- The data-subject-presentation response body.  JavaScript objects are
modelled as association lists in key-insertion order with unique keys
(`for ... in` iterates own enumerable keys in that order for the non-numeric
ids used here). -/
structure DSPResponse where
  purposes : List (String × Purpose) := []
  attributes : List (String × AttrDesc) := []
  accessTypes : List (String × ATDesc) := []
  consents : List (String × ConsentRecord) := []
deriving Repr, DecidableEq

/-- JavaScript object key lookup on an association list. -/
def lookupA {α : Type} (l : List (String × α)) (k : String) : Option α :=
  (l.find? (fun p => p.1 == k)).map (·.2)

/-- The flattened metadata record built by
`DPCMService._buildMetadataRecord` (`dpcmService.js` lines 325-344), plus the
`consent` field attached during reconciliation. -/
structure MetadataRecord where
  purposeId : String
  attributeId : Option String
  accessTypeId : String
  purposeName : String
  attributeName : Option String
  accessType : String
  defaultConsentDuration : Option Int
  assentUIDefault : Option Bool
  consentType : Option Int
  termsOfUseRef : Option String
  status : String
  consent : Option ConsentRecord := none
deriving Repr, DecidableEq, Inhabited

/-- `dpcmService.js` lines 325-344 (`_buildMetadataRecord`).  The
`response.attributes[attributeID].name` and
`response.accessTypes[accessTypeID].name` accesses throw a `TypeError` when
the id is not a key of the respective map; `termsOfUseRef` is
`(purpose.termsOfUse && purpose.termsOfUse.ref) ? purpose.termsOfUse.ref :
null` (an empty `ref` string is falsy). -/
def DPCMService.buildMetadataRecord (resp : DSPResponse) (purpose : Purpose)
    (attributeID : Option String) (accessTypeID : String)
    (assentUIDefault : Option Bool) (legalCategory : Option Int) :
    Except JsError MetadataRecord :=
  match
    (match attributeID with
     | some aid =>
       match lookupA resp.attributes aid with
       | some d => Except.ok (some d.name)
       | none => Except.error JsError.typeError
     | none => Except.ok none) with
  | .error e => .error e
  | .ok attrName =>
    match lookupA resp.accessTypes accessTypeID with
    | none => .error .typeError
    | some atDesc =>
      .ok
        { purposeId := purpose.id
          attributeId := attributeID
          accessTypeId := accessTypeID
          purposeName := purpose.name
          attributeName := attrName
          accessType := atDesc.name
          defaultConsentDuration := purpose.defaultConsentDuration
          assentUIDefault := assentUIDefault
          consentType := legalCategory
          termsOfUseRef :=
            (match purpose.termsOfUse with
             | some t =>
               match t.ref with
               | some r => if r.isEmpty then none else some r
               | none => none
             | none => none)
          status := "NONE"
          consent := none }

/-- One record registered in the `records` map and pushed onto a bucket of the
`metadata` result: the name components from which the registration key
`` `${pid}/${aid}.${atId}` `` was built (the purpose-level branch uses an
empty attribute slot), the record object, and its bucket. -/
structure Emission where
  pid : String
  aid : String
  atId : String
  record : MetadataRecord
  eula : Bool
deriving Repr, DecidableEq, Inhabited

/-- The key under which an emission's record was registered in the `records`
map (`dpcmService.js` lines 159 and 186). -/
def Emission.name (e : Emission) : String :=
  e.pid ++ "/" ++ e.aid ++ "." ++ e.atId

/-- Sequential `Except`-valued concat-map, mirroring loops that may `continue`
(empty contribution) or throw; the first error aborts, as in JavaScript. -/
def concatMapE {α β : Type} (f : α → Except JsError (List β)) :
    List α → Except JsError (List β)
  | [] => .ok []
  | a :: as =>
    match f a with
    | .error e => .error e
    | .ok bs =>
      match concatMapE f as with
      | .error e => .error e
      | .ok rest => .ok (bs ++ rest)

/-- `dpcmService.js` lines 158-181: one (attribute, access type) combination of
a purpose with an explicit `attributes` array.  If the id-based name is not in
the item set, the alias with the attribute's display name is tried
(`response.attributes[attributeID].name` throwing when the id is unknown); an
unmatched combination contributes nothing. -/
def DPCMService.emitAttrCombo (itemSet : List String) (resp : DSPResponse)
    (purposeID : String) (purpose : Purpose) (attr : AttributeEntry)
    (accessType : AccessTypeEntry) : Except JsError (List Emission) :=
  if itemSet.contains (purposeID ++ "/" ++ attr.id ++ "." ++ accessType.id) then
    match DPCMService.buildMetadataRecord resp purpose (some attr.id)
        accessType.id accessType.assentUIDefault accessType.legalCategory with
    | .error e => .error e
    | .ok r =>
      .ok [⟨purposeID, attr.id, accessType.id, r, purpose.category == "eula"⟩]
  else
    match lookupA resp.attributes attr.id with
    | none => .error .typeError
    | some d =>
      if itemSet.contains (purposeID ++ "/" ++ d.name ++ "." ++ accessType.id) then
        match DPCMService.buildMetadataRecord resp purpose (some attr.id)
            accessType.id accessType.assentUIDefault accessType.legalCategory with
        | .error e => .error e
        | .ok r =>
          .ok [⟨purposeID, attr.id, accessType.id, r, purpose.category == "eula"⟩]
      else .ok []

/-- `dpcmService.js` lines 185-201: one access type of a purpose without an
`attributes` array.  The name template `` `${purposeID}/.${accessType.id}` ``
is spelled with its empty attribute slot; `assentUIDefault` defaults (falsy)
to `false` and `legalCategory` (falsy, so also at 0) to `4`. -/
def DPCMService.emitPurposeCombo (itemSet : List String) (resp : DSPResponse)
    (purposeID : String) (purpose : Purpose) (accessType : AccessTypeEntry) :
    Except JsError (List Emission) :=
  if itemSet.contains (purposeID ++ "/" ++ "" ++ "." ++ accessType.id) then
    match DPCMService.buildMetadataRecord resp purpose none accessType.id
        (some (accessType.assentUIDefault == some true))
        (some
          (match accessType.legalCategory with
           | some n => if n == 0 then 4 else n
           | none => 4)) with
    | .error e => .error e
    | .ok r => .ok [⟨purposeID, "", accessType.id, r, purpose.category == "eula"⟩]
  else .ok []

/-- The per-purpose part of the filtering pass (`dpcmService.js` lines
155-202): the attributes branch when `purpose.attributes` is a present array,
else the purpose-level access-types branch. -/
def DPCMService.purposeEmissions (itemSet : List String) (resp : DSPResponse)
    (purposeID : String) (purpose : Purpose) : Except JsError (List Emission) :=
  match purpose.attributes with
  | some attrs =>
    concatMapE
      (fun attr =>
        concatMapE (DPCMService.emitAttrCombo itemSet resp purposeID purpose attr)
          attr.accessTypes)
      attrs
  | none =>
    concatMapE (DPCMService.emitPurposeCombo itemSet resp purposeID purpose)
      purpose.accessTypes

/-- The whole filtering pass (`dpcmService.js` lines 148-203): all emissions in
push order; an empty purpose key is skipped (`if (!purposeID) continue`). -/
def DPCMService.filterPass (itemSet : List String) (resp : DSPResponse) :
    Except JsError (List Emission) :=
  concatMapE
    (fun p =>
      if p.1 == "" then .ok []
      else DPCMService.purposeEmissions itemSet resp p.1 p.2)
    resp.purposes

/-- `dpcmService.js` lines 212-215: the lookup key of a consent record, with
missing `attributeId` / `accessTypeId` defaulting to the empty string via
`StringUtils.getOrDefault`. -/
def DPCMService.consentName (c : ConsentRecord) : String :=
  c.purposeId ++ "/" ++ StringUtils.getStrField c.attributeId ""
    ++ "." ++ StringUtils.getStrField c.accessTypeId ""

/-- `dpcmService.js` lines 220-223: the in-place mutation of a matched record:
`record.consent = consent`, `record.status = (consent.status == 1) ? 'ACTIVE'
: 'EXPIRED'`, `record.consentType = consent.state`. -/
def DPCMService.applyConsent (c : ConsentRecord) (e : Emission) : Emission :=
  { e with
    record :=
      { e.record with
        consent := some c
        status := if c.status == 1 then "ACTIVE" else "EXPIRED"
        consentType := some c.state } }

/-- Position of the record the `records` map holds for `name`: the map entry
was last overwritten by the latest `records[name] = record` assignment, so the
lookup resolves to the last emission with that registration key. -/
def lastIdxAux (nm : String) : List Emission → Nat → Option Nat
  | [], _ => none
  | e :: es, i =>
    match lastIdxAux nm es (i + 1) with
    | some j => some j
    | none => if e.name == nm then some i else none

/-- Top-level form of `lastIdxAux`. -/
def lastIdx (es : List Emission) (nm : String) : Option Nat :=
  lastIdxAux nm es 0

/-- `dpcmService.js` lines 206-224: the body of the reconciliation loop for one
`(consentID, consent)` pair, acting on the emission list (whose records the
`records` map aliases).  An empty consent key is skipped; an unmatched name
leaves the state unchanged. -/
def DPCMService.reconcileStep (state : List Emission)
    (p : String × ConsentRecord) : List Emission :=
  if p.1 == "" then state
  else
    match lastIdx state (DPCMService.consentName p.2) with
    | none => state
    | some i =>
      state.set i (DPCMService.applyConsent p.2 (state.getD i default))

/-- The `{eula, default}` result object; `dflt` is the source's `default`
bucket (the name `default` is reserved in Lean). -/
structure ConsentMetadata where
  eula : List MetadataRecord
  dflt : List MetadataRecord
deriving Repr, DecidableEq

/-- `dpcmService.js` lines 141-227 (`processConsentMetadata`): the filtering
pass, the reconciliation pass over `response.consents`, and the bucketed
result.  The output lists hold the same (mutated) record objects that the
emission list tracks, in push order. -/
def DPCMService.processConsentMetadata (itemSet : List String)
    (resp : DSPResponse) : Except JsError ConsentMetadata :=
  match DPCMService.filterPass itemSet resp with
  | .error e => .error e
  | .ok emissions =>
    let fin := resp.consents.foldl DPCMService.reconcileStep emissions
    .ok
      { eula := (fin.filter (·.eula)).map (·.record)
        dflt := (fin.filter (fun e => !e.eula)).map (·.record) }

/-- The SDK context object; `none` covers an absent, `undefined` or `null`
field (all falsy in the source's guards), `some ""` an empty string (also
falsy). -/
structure Context where
  subjectId : Option String := none
  isExternalSubject : Option Bool := none
  ipAddress : Option String := none
deriving Repr, DecidableEq

/-- Truthiness of an optional string context field (`ctx.f && ctx.f != null`:
the loose `!= null` conjunct is redundant after the truthiness test). -/
def Context.truthyStr : Option String → Bool
  | some s => !s.isEmpty
  | none => false

/-- Truthiness of the optional boolean `isExternalSubject` field. -/
def Context.truthyBool : Option Bool → Bool
  | some b => b
  | none => false

/-- The request body of `DPCMService.requestApproval` (`dpcmService.js` lines
63-80): `{items: duaRequest}` plus conditionally added context fields. -/
structure ApprovalReq where
  items : List RequestItem
  subjectId : Option String := none
  isExternalSubject : Option Bool := none
  geoIP : Option String := none
deriving Repr, DecidableEq

/-- `dpcmService.js` lines 63-80: build the data-usage-approval request. -/
def DPCMService.requestApprovalReq (ctx : Context) (duaRequest : List RequestItem) :
    ApprovalReq :=
  let req : ApprovalReq := { items := duaRequest }
  let req := if Context.truthyStr ctx.subjectId then
    { req with subjectId := ctx.subjectId } else req
  let req := if Context.truthyBool ctx.isExternalSubject then
    { req with isExternalSubject := ctx.isExternalSubject } else req
  if Context.truthyStr ctx.ipAddress then { req with geoIP := ctx.ipAddress } else req

/-- The request body of `DPCMService.getConsentMetadata` (`dpcmService.js`
lines 108-124): `{purposeId: purposes}` plus context fields. -/
structure MetadataReq where
  purposeId : List String
  subjectId : Option String := none
  isExternalSubject : Option Bool := none
  geoIP : Option String := none
deriving Repr, DecidableEq

/-- `dpcmService.js` lines 108-124: build the data-subject-presentation
request. -/
def DPCMService.getConsentMetadataReq (ctx : Context) (purposes : List String) :
    MetadataReq :=
  let req : MetadataReq := { purposeId := purposes }
  let req := if Context.truthyStr ctx.subjectId then
    { req with subjectId := ctx.subjectId } else req
  let req := if Context.truthyBool ctx.isExternalSubject then
    { req with isExternalSubject := ctx.isExternalSubject } else req
  if Context.truthyStr ctx.ipAddress then { req with geoIP := ctx.ipAddress } else req

/-- A caller-supplied consent entry for `storeConsents`; all fields optional,
carried through unchanged except the context fields that augmentation may
overwrite. -/
structure ConsentEntry where
  op : Option String := none
  path : Option String := none
  purposeId : Option String := none
  attributeId : Option String := none
  attributeValue : Option String := none
  accessTypeId : Option String := none
  state : Option Int := none
  startTime : Option Int := none
  endTime : Option Int := none
  subjectId : Option String := none
  isExternalSubject : Option Bool := none
  geoIP : Option String := none
deriving Repr, DecidableEq

/-- The per-entry context augmentation inside the `consents.forEach` of
`DPCMService.storeConsents` (`dpcmService.js` lines 275-286). -/
def DPCMService.augmentConsent (ctx : Context) (c : ConsentEntry) : ConsentEntry :=
  let c := if Context.truthyStr ctx.subjectId then
    { c with subjectId := ctx.subjectId } else c
  let c := if Context.truthyBool ctx.isExternalSubject then
    { c with isExternalSubject := ctx.isExternalSubject } else c
  if Context.truthyStr ctx.ipAddress then { c with geoIP := ctx.ipAddress } else c

/-- One element of the PATCH body built by `DPCMService.storeConsents`. -/
structure PatchOp where
  op : String
  value : ConsentEntry
deriving Repr, DecidableEq

/-- `dpcmService.js` lines 272-292: the `consentOps` array — every entry is
augmented and pushed as `{op: 'add', value: consent}`, with no other branch. -/
def DPCMService.storeConsentsOps (ctx : Context) (consents : List ConsentEntry) :
    List PatchOp :=
  consents.foldl
    (fun acc consent => acc ++ [⟨"add", DPCMService.augmentConsent ctx consent⟩])
    []

/-- The single batched PATCH request submitted by `DPCMService.storeConsents`
(`dpcmService.js` line 294). -/
structure PatchRequest where
  path : String
  body : List PatchOp
deriving Repr, DecidableEq

/-- `dpcmService.js` lines 272-295: the one PATCH call of `storeConsents`. -/
def DPCMService.storeConsentsRequest (ctx : Context) (consents : List ConsentEntry) :
    PatchRequest :=
  { path := "/v1.0/privacy/consents", body := DPCMService.storeConsentsOps ctx consents }

/-- `error.response` of a caught error: transport errors carry
`{response: {status, data}}`; other thrown objects (such as a `TypeError`
raised inside the `try` block) have no `response` property.  `δ` is the type
of the structured response body. -/
structure CaughtResponse (δ : Type) where
  data : Option δ := none
deriving Repr, DecidableEq

/-- An error object reaching a facade `catch` block. -/
structure CaughtError (δ : Type) where
  response : Option (CaughtResponse δ) := none
deriving Repr, DecidableEq

/-- The `data` object of the defensive `INVALID_DATATYPE` envelope in
`Privacy.assess`. -/
structure InvalidData where
  messageId : String
  messageDescription : String
deriving Repr, DecidableEq

/-- The transport result consumed by `Privacy.assess`: either an array of
assessment entries or a non-array value (carrying its `typeof` string). -/
inductive AssessPayload where
  | arr (entries : List AssessEntry)
  | notArr (typeName : String)
deriving Repr, DecidableEq

/-- The envelope resolved by `Privacy.assess`; absent fields are `none`. -/
structure AssessOutcome (δ : Type) where
  status : String
  assessment : Option (List AssessEntry) := none
  detail : Option δ := none
  data : Option InvalidData := none
deriving Repr, DecidableEq

/-- The `catch` block of `Privacy.assess` and `Privacy.getConsentMetadata`
(`privacy.js` lines 156-164 and 232-240): `error.response.data` is probed
without guarding `error.response`, so a caught error without a `response`
property makes the handler itself throw. -/
def Privacy.unguardedCatch {δ : Type} (e : CaughtError δ) :
    Except JsError (String × Option δ) :=
  match e.response with
  | none => .error .typeError
  | some r => .ok ("error", r.data)

/-- `privacy.js` lines 113-166 (`Privacy.assess`), as a function of the
transport outcome: the non-array guard, the status reduction, and the catch
handler.  A `TypeError` thrown inside the `try` block (by the reduction loop)
reaches the same catch handler as an error object without a `response`
property. -/
def Privacy.assess {δ : Type} (tr : Except (CaughtError δ) AssessPayload) :
    Except JsError (AssessOutcome δ) :=
  match tr with
  | .error e =>
    match Privacy.unguardedCatch e with
    | .error err => .error err
    | .ok (st, d) => .ok { status := st, detail := d }
  | .ok (.notArr t) =>
    .ok
      { status := "error"
        data :=
          some
            { messageId := "INVALID_DATATYPE"
              messageDescription :=
                "'assessment' is expected to be an array. Received " ++ t } }
  | .ok (.arr entries) =>
    match Privacy.assessStatus entries with
    | .ok st => .ok { status := st, assessment := some entries }
    | .error _ =>
      match Privacy.unguardedCatch ({ response := none } : CaughtError δ) with
      | .error err => .error err
      | .ok (st, d) => .ok { status := st, detail := d }

/-- The envelope resolved by `Privacy.getConsentMetadata`. -/
structure MetadataOutcome (δ : Type) where
  status : String
  metadata : Option ConsentMetadata := none
  detail : Option δ := none
deriving Repr, DecidableEq

/-- `privacy.js` lines 205-242 (`Privacy.getConsentMetadata`), as a function of
the caller items and the transport outcome: builds the item-name set, runs the
normalizer, and recovers transport errors through the unguarded catch
handler.  A `TypeError` thrown by the normalizer reaches the catch with no
`response` property. -/
def Privacy.getConsentMetadata {δ : Type} (items : List RequestItem)
    (tr : Except (CaughtError δ) DSPResponse) :
    Except JsError (MetadataOutcome δ) :=
  match tr with
  | .error e =>
    match Privacy.unguardedCatch e with
    | .error err => .error err
    | .ok (st, d) => .ok { status := st, detail := d }
  | .ok resp =>
    match DPCMService.processConsentMetadata (Privacy.itemNameSet items) resp with
    | .ok m => .ok { status := "done", metadata := some m }
    | .error _ =>
      match Privacy.unguardedCatch ({ response := none } : CaughtError δ) with
      | .error err => .error err
      | .ok (st, d) => .ok { status := st, detail := d }

/-- The envelope resolved by `Privacy.getUserConsents`; `γ` is the type of the
`consents` payload of the transport response. -/
structure UserConsentsOutcome (δ γ : Type) where
  status : String
  consents : Option γ := none
  detail : Option δ := none
deriving Repr, DecidableEq

/-- `privacy.js` lines 255-274 (`Privacy.getUserConsents`): the success path
returns `resp.consents`; the catch guards `error.response && error.response.data`,
so it never throws. -/
def Privacy.getUserConsents {δ γ : Type} (tr : Except (CaughtError δ) γ) :
    UserConsentsOutcome δ γ :=
  match tr with
  | .ok consents => { status := "done", consents := some consents }
  | .error e =>
    { status := "error"
      detail :=
        match e.response with
        | some r => r.data
        | none => none }

/-- The envelope resolved by `DPCM.storeConsents`; `ρ` is the transport
response body type. -/
structure StoreOutcome (δ ρ : Type) where
  status : String
  response : Option ρ := none
  detail : Option δ := none
deriving Repr, DecidableEq

/-- The `catch` block of `DPCM.storeConsents` (`dpcm.js` lines 286-293):
status `'deny'`, with `detail` added when `error.response.data` is present
(the `error.response` access is unguarded, as in `Privacy.assess`). -/
def DPCM.storeConsentsCatch {δ ρ : Type} (e : CaughtError δ) :
    Except JsError (StoreOutcome δ ρ) :=
  match e.response with
  | none => .error .typeError
  | some r => .ok { status := "deny", detail := r.data }

/-- `dpcm.js` lines 277-294 (`DPCM.storeConsents`) composed with
`DPCMService.storeConsents`: the ops are built, handed to the transport as one
batched PATCH, and the outcome is wrapped as `{status: 'done', response}` or
the `'deny'` envelope. -/
def DPCM.storeConsents {δ ρ : Type} (ctx : Context) (consents : List ConsentEntry)
    (transport : PatchRequest → Except (CaughtError δ) ρ) :
    Except JsError (StoreOutcome δ ρ) :=
  match transport (DPCMService.storeConsentsRequest ctx consents) with
  | .ok r => .ok { status := "done", response := some r }
  | .error e => DPCM.storeConsentsCatch e

/-- The SDK configuration object (`tenantUrl` absent or a string). -/
structure Config where
  tenantUrl : Option String := none
deriving Repr, DecidableEq

/-- The auth object (`accessToken` absent or a string). -/
structure Auth where
  accessToken : Option String := none
deriving Repr, DecidableEq

/-- The `ConfigurationError` thrown by the `Privacy` constructor, carrying its
message. -/
structure ConfigurationError where
  message : String
deriving Repr, DecidableEq

/-- The constructed client state. -/
structure PrivacyClient where
  config : Config
  auth : Auth
  context : Context
deriving Repr, DecidableEq

/-- `privacy.js` lines 48-62 (`Privacy` constructor): both required fields are
probed with `StringUtils.has` and a missing one throws a `ConfigurationError`
synchronously; no transport interaction is involved (the service object is
created per call, later). -/
def Privacy.construct (config : Config) (auth : Auth) (context : Context) :
    Except ConfigurationError PrivacyClient :=
  if !StringUtils.hasStrField config.tenantUrl then
    .error ⟨"Cannot find property \'tenantUrl\' in configuration settings."⟩
  else if !StringUtils.hasStrField auth.accessToken then
    .error ⟨"Cannot find property \'accessToken\' in auth"⟩
  else .ok ⟨config, auth, context⟩

/-- Stated from claim C8's words: the `subjectId` a request entry gains —
present and non-empty, else nothing. -/
def contextGainSubjectClaimed (ctx : Context) : Option String :=
  match ctx.subjectId with
  | some s => if s.isEmpty then none else some s
  | none => none

/-- Stated from claim C8's words: the `isExternalSubject` a request entry
gains — only when the context field is set (to `true`; a `false` value is
falsy in the source's guard and is not added). -/
def contextGainExternalClaimed (ctx : Context) : Option Bool :=
  match ctx.isExternalSubject with
  | some b => if b then some true else none
  | none => none

/-- Stated from claim C8's words: the `geoIP` a request entry gains —
`context.ipAddress` when present and non-empty, else nothing. -/
def contextGainGeoIPClaimed (ctx : Context) : Option String :=
  match ctx.ipAddress with
  | some s => if s.isEmpty then none else some s
  | none => none

/-- All access-type ids the filtering pass can draw a purpose's emission names
from (attributes branch when present, else the purpose-level branch). -/
def purposeAccessTypeIds (purpose : Purpose) : List String :=
  match purpose.attributes with
  | some attrs => attrs.flatMap (fun a => a.accessTypes.map (·.id))
  | none => purpose.accessTypes.map (·.id)

/-- All access-type ids a response's filtering pass can draw emission names
from. -/
def responseAccessTypeIds (resp : DSPResponse) : List String :=
  resp.purposes.flatMap (fun p => purposeAccessTypeIds p.2)

/-- Concrete server response used to exercise the normalizer: purpose
`marketing` exposing attribute `11` (display name `mobile_number`) with access
type `default`, and one matching active consent. -/
def respAlias : DSPResponse :=
  { purposes := [("marketing",
      { id := "mkt", name := "Marketing", category := "default",
        attributes := some [⟨"11", [⟨"default", some true, some 3⟩]⟩],
        defaultConsentDuration := some 30,
        termsOfUse := some ⟨some "http://tou"⟩ })],
    attributes := [("11", ⟨"mobile_number"⟩)],
    accessTypes := [("default", ⟨"Default"⟩)],
    consents := [("c1", ⟨"marketing", some "11", some "default", 1, 3⟩)] }

/-- The record the normalizer builds for `respAlias`'s single combination. -/
def respAliasRecord : MetadataRecord :=
  { purposeId := "mkt", attributeId := some "11", accessTypeId := "default",
    purposeName := "Marketing", attributeName := some "mobile_number",
    accessType := "Default", defaultConsentDuration := some 30,
    assentUIDefault := some true, consentType := some 3,
    termsOfUseRef := some "http://tou", status := "NONE", consent := none }

/-- The emission registered for `respAlias`'s single combination. -/
def respAliasEmission : Emission :=
  ⟨"marketing", "11", "default", respAliasRecord, false⟩

/-- Concrete response for the filtering checks: purpose `marketing` exposing
only attribute `3` (display name `postal_code`) with access type `default`. -/
def respFilter : DSPResponse :=
  { purposes := [("marketing",
      { id := "mkt", name := "Marketing", category := "default",
        attributes := some [⟨"3", [⟨"default", none, none⟩]⟩] })],
    attributes := [("3", ⟨"postal_code"⟩)],
    accessTypes := [("default", ⟨"Default"⟩)],
    consents := [] }

/-- `respAlias` with its consent record lacking the `accessTypeId` field. -/
def respNoAccess : DSPResponse :=
  { respAlias with consents := [("c2", ⟨"marketing", some "11", none, 1, 3⟩)] }

/-- A response whose access-type id contains a dot: attribute `x` with access
type id `y.`, requested as `p/x.y.`, plus a consent for attribute `x.y` with
no `accessTypeId` field — its lookup key is also `p/x.y.`. -/
def respDotted : DSPResponse :=
  { purposes := [("p",
      { id := "p", name := "P", category := "default",
        attributes := some [⟨"x", [⟨"y.", none, some 3⟩]⟩] })],
    attributes := [("x", ⟨"xname"⟩)],
    accessTypes := [("y.", ⟨"yname"⟩)],
    consents := [("c1", ⟨"p", some "x.y", none, 1, 3⟩)] }

/-- The assessment array of spec property P2's mixed example: one approved
entry followed by one consent-eligible entry. -/
def entriesMixed : List AssessEntry :=
  [⟨some [⟨true, none⟩]⟩, ⟨some [⟨false, some ⟨"CSIBT0033I"⟩⟩]⟩]

/-- A transport error carrying a structured response body. -/
def errWithBody : CaughtError String := ⟨some ⟨some "boom"⟩⟩

/-- A caller-supplied explicit update-end-time consent operation. -/
def replaceEntry : ConsentEntry :=
  { op := some "replace", path := some "/abc/endTime", endTime := some 123 }

/-- Every element of a successful `concatMapE` run comes from the run of one
input element. -/
theorem concatMapE_mem {α β : Type} (f : α → Except JsError (List β)) :
    ∀ {xs : List α} {l : List β}, concatMapE f xs = .ok l →
    ∀ b ∈ l, ∃ a ∈ xs, ∃ la, f a = .ok la ∧ b ∈ la := by
  intro xs
  induction xs with
  | nil =>
    intro l h b hb
    unfold concatMapE at h
    cases h
    simp at hb
  | cons a as ih =>
    intro l h b hb
    unfold concatMapE at h
    cases hfa : f a with
    | error e => rw [hfa] at h; cases h
    | ok bs =>
      rw [hfa] at h
      cases hrest : concatMapE f as with
      | error e => rw [hrest] at h; cases h
      | ok rest =>
        rw [hrest] at h
        cases h
        rcases List.mem_append.mp hb with h1 | h2
        · exact ⟨a, by simp, bs, hfa, h1⟩
        · rcases ih hrest b h2 with ⟨a', ha', la, hla, hbla⟩
          exact ⟨a', by simp [ha'], la, hla, hbla⟩

/-- `concatMapE` of a function succeeding with `[]` everywhere succeeds with
`[]`. -/
theorem concatMapE_all_nil {α β : Type} (f : α → Except JsError (List β)) :
    ∀ {xs : List α}, (∀ a ∈ xs, f a = .ok []) → concatMapE f xs = .ok ([] : List β) := by
  intro xs
  induction xs with
  | nil => intro _; rfl
  | cons a as ih =>
    intro h
    unfold concatMapE
    rw [h a (by simp), ih (fun x hx => h x (by simp [hx]))]
    rfl



theorem buildMetadataRecord_status {resp : DSPResponse} {purpose : Purpose}
    {aID : Option String} {atID : String} {au : Option Bool} {lc : Option Int}
    {r : MetadataRecord}
    (h : DPCMService.buildMetadataRecord resp purpose aID atID au lc = .ok r) :
    r.status = "NONE" ∧ r.consent = none := by
  unfold DPCMService.buildMetadataRecord at h
  split at h
  · cases h
  · split at h
    · cases h
    · cases h
      exact ⟨rfl, rfl⟩

theorem emitAttrCombo_shape {itemSet : List String} {resp : DSPResponse}
    {purposeID : String} {purpose : Purpose} {attr : AttributeEntry}
    {accessType : AccessTypeEntry} {l : List Emission}
    (h : DPCMService.emitAttrCombo itemSet resp purposeID purpose attr accessType = .ok l) :
    ∀ e ∈ l, e.record.status = "NONE" ∧ e.pid = purposeID ∧ e.aid = attr.id ∧
      e.atId = accessType.id := by
  unfold DPCMService.emitAttrCombo at h
  by_cases h1 : itemSet.contains (purposeID ++ "/" ++ attr.id ++ "." ++ accessType.id) = true
  · rw [if_pos h1] at h
    cases hb : DPCMService.buildMetadataRecord resp purpose (some attr.id)
        accessType.id accessType.assentUIDefault accessType.legalCategory with
    | error e => rw [hb] at h; cases h
    | ok r =>
      rw [hb] at h
      cases h
      intro e he
      simp at he
      subst he
      exact ⟨(buildMetadataRecord_status hb).1, rfl, rfl, rfl⟩
  · rw [if_neg h1] at h
    cases hl : lookupA resp.attributes attr.id with
    | none => simp only [hl] at h; cases h
    | some d =>
      simp only [hl] at h
      by_cases h2 : itemSet.contains (purposeID ++ "/" ++ d.name ++ "." ++ accessType.id) = true
      · rw [if_pos h2] at h
        cases hb : DPCMService.buildMetadataRecord resp purpose (some attr.id)
            accessType.id accessType.assentUIDefault accessType.legalCategory with
        | error e => rw [hb] at h; cases h
        | ok r =>
          rw [hb] at h
          cases h
          intro e he
          simp at he
          subst he
          exact ⟨(buildMetadataRecord_status hb).1, rfl, rfl, rfl⟩
      · rw [if_neg h2] at h
        cases h
        intro e he
        simp at he


theorem emitPurposeCombo_shape {itemSet : List String} {resp : DSPResponse}
    {purposeID : String} {purpose : Purpose} {accessType : AccessTypeEntry}
    {l : List Emission}
    (h : DPCMService.emitPurposeCombo itemSet resp purposeID purpose accessType = .ok l) :
    ∀ e ∈ l, e.record.status = "NONE" ∧ e.pid = purposeID ∧ e.aid = "" ∧
      e.atId = accessType.id := by
  unfold DPCMService.emitPurposeCombo at h
  by_cases h1 : itemSet.contains (purposeID ++ "/" ++ "" ++ "." ++ accessType.id) = true
  · rw [if_pos h1] at h
    cases hb : DPCMService.buildMetadataRecord resp purpose none accessType.id
        (some (accessType.assentUIDefault == some true))
        (some
          (match accessType.legalCategory with
           | some n => if n == 0 then 4 else n
           | none => 4)) with
    | error e => rw [hb] at h; cases h
    | ok r =>
      rw [hb] at h
      cases h
      intro e he
      simp at he
      subst he
      exact ⟨(buildMetadataRecord_status hb).1, rfl, rfl, rfl⟩
  · rw [if_neg h1] at h
    cases h
    intro e he
    simp at he

theorem purposeEmissions_shape {itemSet : List String} {resp : DSPResponse}
    {purposeID : String} {purpose : Purpose} {l : List Emission}
    (h : DPCMService.purposeEmissions itemSet resp purposeID purpose = .ok l) :
    ∀ e ∈ l, e.record.status = "NONE" ∧ e.atId ∈ purposeAccessTypeIds purpose := by
  unfold DPCMService.purposeEmissions at h
  cases hattrs : purpose.attributes with
  | some attrs =>
    rw [hattrs] at h
    intro e he
    rcases concatMapE_mem _ h e he with ⟨a, ha, la, hla, hela⟩
    rcases concatMapE_mem _ hla e hela with ⟨t, ht, lt, hlt, helt⟩
    rcases emitAttrCombo_shape hlt e helt with ⟨hst, _, _, hat⟩
    refine ⟨hst, ?_⟩
    unfold purposeAccessTypeIds
    rw [hattrs]
    simp only [List.mem_flatMap]
    refine ⟨a, ha, ?_⟩
    simp only [List.mem_map]
    exact ⟨t, ht, hat.symm⟩
  | none =>
    rw [hattrs] at h
    intro e he
    rcases concatMapE_mem _ h e he with ⟨t, ht, lt, hlt, helt⟩
    rcases emitPurposeCombo_shape hlt e helt with ⟨hst, _, _, hat⟩
    refine ⟨hst, ?_⟩
    unfold purposeAccessTypeIds
    rw [hattrs]
    simp only [List.mem_map]
    exact ⟨t, ht, hat.symm⟩

theorem filterPass_shape {itemSet : List String} {resp : DSPResponse}
    {es : List Emission}
    (h : DPCMService.filterPass itemSet resp = .ok es) :
    ∀ e ∈ es, e.record.status = "NONE" ∧ e.atId ∈ responseAccessTypeIds resp := by
  unfold DPCMService.filterPass at h
  intro e he
  rcases concatMapE_mem _ h e he with ⟨p, hp, lp, hlp, help⟩
  by_cases hp1 : p.1 == ""
  · rw [if_pos hp1] at hlp
    cases hlp
    simp at help
  · rw [if_neg hp1] at hlp
    rcases purposeEmissions_shape hlp e help with ⟨hst, hmem⟩
    refine ⟨hst, ?_⟩
    unfold responseAccessTypeIds
    simp only [List.mem_flatMap]
    exact ⟨p, hp, hmem⟩

theorem applyConsent_name (c : ConsentRecord) (e : Emission) :
    (DPCMService.applyConsent c e).name = e.name := rfl

theorem applyConsent_comps (c : ConsentRecord) (e : Emission) :
    (DPCMService.applyConsent c e).pid = e.pid ∧
    (DPCMService.applyConsent c e).aid = e.aid ∧
    (DPCMService.applyConsent c e).atId = e.atId := ⟨rfl, rfl, rfl⟩

theorem applyConsent_applyConsent (c c' : ConsentRecord) (e : Emission) :
    DPCMService.applyConsent c (DPCMService.applyConsent c' e) =
      DPCMService.applyConsent c e := rfl

theorem lastIdxAux_spec (nm : String) :
    ∀ (es : List Emission) (k i : Nat), lastIdxAux nm es k = some i →
      k ≤ i ∧ ∃ e, es[i - k]? = some e ∧ e.name = nm := by
  intro es
  induction es with
  | nil => intro k i h; cases h
  | cons e rest ih =>
    intro k i h
    unfold lastIdxAux at h
    cases hrec : lastIdxAux nm rest (k + 1) with
    | some j =>
      rw [hrec] at h
      cases h
      rcases ih (k + 1) i hrec with ⟨hki, x, hx, hnm⟩
      refine ⟨by omega, x, ?_, hnm⟩
      have hik : i - k = (i - (k + 1)) + 1 := by omega
      rw [hik, List.getElem?_cons_succ]
      exact hx
    | none =>
      rw [hrec] at h
      by_cases he : (e.name == nm) = true
      · rw [if_pos he] at h
        cases h
        refine ⟨le_refl _, e, ?_, eq_of_beq he⟩
        simp
      · rw [if_neg he] at h
        cases h

theorem lastIdx_spec {es : List Emission} {nm : String} {i : Nat}
    (h : lastIdx es nm = some i) :
    ∃ e, es[i]? = some e ∧ e.name = nm := by
  rcases lastIdxAux_spec nm es 0 i h with ⟨_, x, hx, hnm⟩
  simpa using ⟨x, hx, hnm⟩

theorem lastIdx_eq_none {es : List Emission} {nm : String}
    (h : ∀ e ∈ es, e.name ≠ nm) : lastIdx es nm = none := by
  unfold lastIdx
  suffices haux : ∀ k, lastIdxAux nm es k = none by exact haux 0
  induction es with
  | nil => intro k; rfl
  | cons e rest ih =>
    intro k
    unfold lastIdxAux
    rw [ih (fun x hx => h x (by simp [hx])) (k + 1)]
    have hne : ¬ (e.name == nm) = true := by
      intro hb
      exact h e (by simp) (eq_of_beq hb)
    rw [if_neg hne]

theorem reconcileStep_skip (st : List Emission) (p : String × ConsentRecord)
    (h : (p.1 == "") = true) : DPCMService.reconcileStep st p = st := by
  unfold DPCMService.reconcileStep
  rw [if_pos h]

theorem reconcileStep_nomatch (st : List Emission) (p : String × ConsentRecord)
    (h1 : (p.1 == "") = false)
    (hli : lastIdx st (DPCMService.consentName p.2) = none) :
    DPCMService.reconcileStep st p = st := by
  unfold DPCMService.reconcileStep
  rw [if_neg (by simp [h1]), hli]

theorem reconcileStep_match (st : List Emission) (p : String × ConsentRecord)
    (i : Nat) (h1 : (p.1 == "") = false)
    (hli : lastIdx st (DPCMService.consentName p.2) = some i) :
    DPCMService.reconcileStep st p =
      st.set i (DPCMService.applyConsent p.2 (st.getD i default)) := by
  unfold DPCMService.reconcileStep
  rw [if_neg (by simp [h1]), hli]

theorem reconcileStep_mem_pred (P : Emission → Prop)
    (hP : ∀ c e, P e → P (DPCMService.applyConsent c e))
    (st : List Emission) (p : String × ConsentRecord)
    (h : ∀ e ∈ st, P e) :
    ∀ e ∈ DPCMService.reconcileStep st p, P e := by
  by_cases h1 : (p.1 == "") = true
  · rw [reconcileStep_skip st p h1]; exact h
  · have h1' : (p.1 == "") = false := Bool.eq_false_iff.mpr h1
    cases hli : lastIdx st (DPCMService.consentName p.2) with
    | none => rw [reconcileStep_nomatch st p h1' hli]; exact h
    | some i =>
      rw [reconcileStep_match st p i h1' hli]
      intro e he
      rcases List.mem_or_eq_of_mem_set he with hmem | heq
      · exact h e hmem
      · subst heq
        apply hP
        rcases lastIdx_spec hli with ⟨x, hx, _⟩
        have hgd : st.getD i default = x := by
          simp [List.getD_eq_getElem?_getD, hx]
        rw [hgd]
        exact h x (List.getElem?_mem hx)

theorem reconcile_foldl_pred (P : Emission → Prop)
    (hP : ∀ c e, P e → P (DPCMService.applyConsent c e)) :
    ∀ (cs : List (String × ConsentRecord)) (cur : List Emission),
    (∀ e ∈ cur, P e) →
    ∀ e ∈ List.foldl DPCMService.reconcileStep cur cs, P e := by
  intro cs
  induction cs with
  | nil => intro cur h; simpa using h
  | cons q rest ih =>
    intro cur h
    simp only [List.foldl_cons]
    exact ih _ (reconcileStep_mem_pred P hP cur q h)

theorem reconcileStep_inv (pool : List (String × ConsentRecord))
    (orig cur : List Emission) (q : String × ConsentRecord) (hq : q ∈ pool)
    (hlen : cur.length = orig.length)
    (hinv : ∀ (i : Nat) (x y : Emission), cur[i]? = some x → orig[i]? = some y →
      x = y ∨ ∃ c, (∃ cid, (cid, c) ∈ pool) ∧
        DPCMService.consentName c = y.name ∧ x = DPCMService.applyConsent c y) :
    (DPCMService.reconcileStep cur q).length = orig.length ∧
    ∀ (i : Nat) (x y : Emission), (DPCMService.reconcileStep cur q)[i]? = some x → orig[i]? = some y →
      x = y ∨ ∃ c, (∃ cid, (cid, c) ∈ pool) ∧
        DPCMService.consentName c = y.name ∧ x = DPCMService.applyConsent c y := by
  by_cases h1 : (q.1 == "") = true
  · rw [reconcileStep_skip cur q h1]; exact ⟨hlen, hinv⟩
  · have h1' : (q.1 == "") = false := Bool.eq_false_iff.mpr h1
    cases hli : lastIdx cur (DPCMService.consentName q.2) with
    | none => rw [reconcileStep_nomatch cur q h1' hli]; exact ⟨hlen, hinv⟩
    | some i0 =>
      rw [reconcileStep_match cur q i0 h1' hli]
      rcases lastIdx_spec hli with ⟨x0, hx0, hx0nm⟩
      have hi0 : i0 < cur.length := (List.getElem?_eq_some_iff.mp hx0).1
      have hgd : cur.getD i0 default = x0 := by
        simp [List.getD_eq_getElem?_getD, hx0]
      constructor
      · simp [hlen]
      · intro i x y hx hy
        by_cases hii : i0 = i
        · subst hii
          rw [hgd, List.getElem?_set_self hi0] at hx
          cases hx
          rcases hinv i0 x0 y hx0 hy with heq | ⟨c', _, hnm', happ'⟩
          · subst heq
            refine Or.inr ⟨q.2, ⟨q.1, by simpa using hq⟩, ?_, rfl⟩
            rw [← hx0nm]
          · refine Or.inr ⟨q.2, ⟨q.1, by simpa using hq⟩, ?_, ?_⟩
            · rw [← hx0nm, happ', applyConsent_name]
            · rw [happ', applyConsent_applyConsent]
        · rw [List.getElem?_set_ne hii] at hx
          exact hinv i x y hx hy

theorem reconcile_foldl_inv (pool : List (String × ConsentRecord))
    (orig : List Emission) :
    ∀ (cs : List (String × ConsentRecord)), (∀ q ∈ cs, q ∈ pool) →
    ∀ (cur : List Emission), cur.length = orig.length →
    (∀ (i : Nat) (x y : Emission), cur[i]? = some x → orig[i]? = some y →
      x = y ∨ ∃ c, (∃ cid, (cid, c) ∈ pool) ∧
        DPCMService.consentName c = y.name ∧ x = DPCMService.applyConsent c y) →
    (List.foldl DPCMService.reconcileStep cur cs).length = orig.length ∧
    ∀ (i : Nat) (x y : Emission), (List.foldl DPCMService.reconcileStep cur cs)[i]? = some x →
      orig[i]? = some y →
      x = y ∨ ∃ c, (∃ cid, (cid, c) ∈ pool) ∧
        DPCMService.consentName c = y.name ∧ x = DPCMService.applyConsent c y := by
  intro cs
  induction cs with
  | nil => intro _ cur hlen hinv; exact ⟨hlen, hinv⟩
  | cons q rest ih =>
    intro hsub cur hlen hinv
    simp only [List.foldl_cons]
    rcases reconcileStep_inv pool orig cur q (hsub q (by simp)) hlen hinv with ⟨hl2, hi2⟩
    exact ih (fun x hx => hsub x (by simp [hx])) _ hl2 hi2

theorem list_getLast?_mem {α : Type} : ∀ {l : List α} {a : α},
    l.getLast? = some a → a ∈ l
  | [], _, h => by cases h
  | [b], a, h => by
    simp at h
    simp [h]
  | b :: c :: rest, a, h => by
    rw [List.getLast?_cons_cons] at h
    exact List.mem_cons_of_mem _ (list_getLast?_mem h)

theorem string_data_ne_nil {s : String} (h : s ≠ "") : s.data ≠ [] := by
  intro hd
  apply h
  cases s
  simp_all

theorem string_lastChar_append (s t : String) (h : t ≠ "") :
    (s ++ t).data.getLast? = t.data.getLast? := by
  rw [String.data_append, List.getLast?_append]
  cases hlast : t.data.getLast? with
  | none => exact absurd (List.getLast?_eq_none_iff.mp hlast) (string_data_ne_nil h)
  | some a => simp [Option.or]

theorem emission_name_ne_consent_key (e : Emission) (h1 : e.atId ≠ "")
    (h2 : ∀ ch ∈ e.atId.data, ch ≠ '.') (c : ConsentRecord)
    (hc : c.accessTypeId = none) :
    e.name ≠ DPCMService.consentName c := by
  intro heq
  have hl : e.name.data.getLast? = e.atId.data.getLast? := by
    unfold Emission.name
    exact string_lastChar_append _ _ h1
  obtain ⟨ch, hch⟩ : ∃ ch, e.atId.data.getLast? = some ch := by
    cases hlast : e.atId.data.getLast? with
    | none => exact absurd (List.getLast?_eq_none_iff.mp hlast) (string_data_ne_nil h1)
    | some a => exact ⟨a, rfl⟩
  have hchne : ch ≠ '.' := h2 ch (list_getLast?_mem hch)
  have hr : (DPCMService.consentName c).data.getLast? = some '.' := by
    unfold DPCMService.consentName
    rw [hc]
    show (c.purposeId ++ "/" ++ StringUtils.getStrField c.attributeId "" ++ "."
      ++ "").data.getLast? = some '.'
    rw [String.append_empty]
    rw [string_lastChar_append _ "." (by decide)]
    rfl
  rw [heq, hr] at hl
  rw [hch] at hl
  exact hchne (Option.some.inj hl).symm

theorem assessStep_eq_claimed {ia : AssessEntry} (hwf : ia.wf = true)
    (status : Option String) :
    Privacy.assessStep status ia = .ok (Privacy.claimedStep status ia) := by
  unfold Privacy.assessStep Privacy.claimedStep AssessEntry.wf at *
  cases hres : ia.result with
  | none => rfl
  | some l =>
    rw [hres] at hwf
    cases l with
    | nil => cases hwf
    | cons r0 rest =>
      by_cases happ : r0.approved
      · simp [happ]
      · simp only [happ, if_false, Bool.false_eq_true]
        cases hr : r0.reason with
        | none => simp [happ, hr] at hwf
        | some rsn =>
          by_cases hmsg : (rsn.messageId == "CSIBT0033I") = true
          · simp [hmsg]
          · simp [Bool.eq_false_iff.mpr hmsg]

theorem assessLoop_eq_claimed {entries : List AssessEntry}
    (h : ∀ ia ∈ entries, ia.wf = true) :
    ∀ status, Privacy.assessLoop status entries =
      .ok (entries.foldl Privacy.claimedStep status) := by
  induction entries with
  | nil => intro status; rfl
  | cons ia rest ih =>
    intro status
    calc Privacy.assessLoop status (ia :: rest)
        = Privacy.assessLoop (Privacy.claimedStep status ia) rest := by
          show (match Privacy.assessStep status ia with
                | .ok s => Privacy.assessLoop s rest
                | .error e => .error e) =
            Privacy.assessLoop (Privacy.claimedStep status ia) rest
          rw [assessStep_eq_claimed (h ia (by simp)) status]
      _ = .ok (rest.foldl Privacy.claimedStep (Privacy.claimedStep status ia)) :=
          ih (fun x hx => h x (by simp [hx])) _
      _ = .ok ((ia :: rest).foldl Privacy.claimedStep status) := by
          rw [List.foldl_cons]

/-- Claim C1 (code bug).  The claim says the key added to the item-key set for
`{purposeId: "marketing", attributeId: "11", accessTypeId: "default"}` is
`"marketing/11.default"`.  The code instead computes
`"marketing/undefined.undefined"`: `privacy.js` line 220 passes only two
arguments to the three-parameter `StringUtils.getOrDefault(obj, key,
defaultValue)`, so `""` binds `key`, `defaultValue` is `undefined`, a string
receiver has no own property `""`, and the template literal renders the
returned `undefined` as `"undefined"`.  In particular the key never reflects
the attribute id nor the just-defaulted access type id. -/
theorem c1_item_key_code_bug :
    Privacy.itemName ⟨"marketing", some "11", some "default"⟩ =
      "marketing/undefined.undefined" ∧
    Privacy.itemName ⟨"marketing", some "11", some "default"⟩ ≠
      "marketing/11.default" ∧
    Privacy.itemNameSet
        [⟨"marketing", some "11", some "default"⟩, ⟨"defaultEULA", none, none⟩] =
      ["marketing/undefined.undefined", "defaultEULA/undefined.undefined"] := by
  refine ⟨rfl, ?_, rfl⟩
  decide

/-- Claim C2 (confirmed).  For every assessment array whose entries are
well-formed (a present `result` array is nonempty and a non-approved first
element carries a `reason` — the code's crash-free domain), the status
computed by `Privacy.assess`'s loop equals the single in-order pass described
by the claim: an approved entry sets `"approved"` only if no status is set
yet; a non-approved entry whose `reason.messageId` equals the sentinel
`"CSIBT0033I"` unconditionally assigns `"consent"` (so a later such entry
overrides an earlier `"approved"`); any other non-approved entry assigns
nothing; and if nothing assigned a status the result is `"denied"`. -/
theorem c2_assess_reducer (entries : List AssessEntry)
    (h : ∀ ia ∈ entries, ia.wf = true) :
    Privacy.assessStatus entries = .ok (Privacy.assessStatusClaimed entries) := by
  unfold Privacy.assessStatus Privacy.assessStatusClaimed
  rw [assessLoop_eq_claimed h none]
  cases entries.foldl Privacy.claimedStep none with
  | none => rfl
  | some s => rfl

/-- Witness for C2 at spec property P2's mixed example: an approved entry
followed by a consent-eligible entry reduces to `"consent"`. -/
theorem c2_assess_reducer_witness :
    Privacy.assessStatus entriesMixed = .ok (Privacy.assessStatusClaimed entriesMixed) ∧
    Privacy.assessStatusClaimed entriesMixed = "consent" :=
  ⟨c2_assess_reducer entriesMixed (by decide), rfl⟩

/-- Claim C9 (confirmed).  Constructing the client with a configuration
lacking `tenantUrl`, or an auth object lacking `accessToken`, fails
synchronously with a `ConfigurationError` whose message names a missing
field; the constructor involves no transport interaction at all (its result
is built from the three arguments alone). -/
theorem c9_construct_validation (config : Config) (auth : Auth) (ctx : Context)
    (h : config.tenantUrl = none ∨ auth.accessToken = none) :
    ∃ e : ConfigurationError, Privacy.construct config auth ctx = .error e ∧
      ((StringUtils.hasStrField config.tenantUrl = false ∧
        e.message = "Cannot find property \'tenantUrl\' in configuration settings.") ∨
       (auth.accessToken = none ∧
        e.message = "Cannot find property \'accessToken\' in auth")) := by
  by_cases ht : StringUtils.hasStrField config.tenantUrl = true
  · have hturl : config.tenantUrl ≠ none := by
      intro hn
      rw [hn] at ht
      cases ht
    have hat : auth.accessToken = none := h.resolve_left hturl
    refine ⟨⟨"Cannot find property \'accessToken\' in auth"⟩, ?_, Or.inr ⟨hat, rfl⟩⟩
    unfold Privacy.construct
    rw [ht]
    have : StringUtils.hasStrField auth.accessToken = false := by
      rw [hat]; rfl
    rw [this]
    rfl
  · have ht' : StringUtils.hasStrField config.tenantUrl = false :=
      Bool.eq_false_iff.mpr ht
    refine ⟨⟨"Cannot find property \'tenantUrl\' in configuration settings."⟩, ?_,
      Or.inl ⟨ht', rfl⟩⟩
    unfold Privacy.construct
    rw [ht']
    rfl

/-- Witness for C9: a configuration without `tenantUrl` is rejected with the
message naming it. -/
theorem c9_construct_validation_witness :
    ∃ e : ConfigurationError, Privacy.construct ⟨none⟩ ⟨some "tok"⟩ {} = .error e ∧
      ((StringUtils.hasStrField (⟨none⟩ : Config).tenantUrl = false ∧
        e.message = "Cannot find property \'tenantUrl\' in configuration settings.") ∨
       ((⟨some "tok"⟩ : Auth).accessToken = none ∧
        e.message = "Cannot find property \'accessToken\' in auth")) :=
  c9_construct_validation ⟨none⟩ ⟨some "tok"⟩ {} (Or.inl rfl)

theorem requestApprovalReq_eq (ctx : Context) (items : List RequestItem) :
    DPCMService.requestApprovalReq ctx items =
      { items := items, subjectId := contextGainSubjectClaimed ctx,
        isExternalSubject := contextGainExternalClaimed ctx,
        geoIP := contextGainGeoIPClaimed ctx } := by
  obtain ⟨s, b, ip⟩ := ctx
  unfold DPCMService.requestApprovalReq contextGainSubjectClaimed
    contextGainExternalClaimed contextGainGeoIPClaimed
  cases s <;> cases b <;> cases ip <;>
    simp only [Context.truthyStr, Context.truthyBool] <;>
    split_ifs <;> simp_all

theorem getConsentMetadataReq_eq (ctx : Context) (purposes : List String) :
    DPCMService.getConsentMetadataReq ctx purposes =
      { purposeId := purposes, subjectId := contextGainSubjectClaimed ctx,
        isExternalSubject := contextGainExternalClaimed ctx,
        geoIP := contextGainGeoIPClaimed ctx } := by
  obtain ⟨s, b, ip⟩ := ctx
  unfold DPCMService.getConsentMetadataReq contextGainSubjectClaimed
    contextGainExternalClaimed contextGainGeoIPClaimed
  cases s <;> cases b <;> cases ip <;>
    simp only [Context.truthyStr, Context.truthyBool] <;>
    split_ifs <;> simp_all

theorem augmentConsent_eq (ctx : Context) (c : ConsentEntry) :
    DPCMService.augmentConsent ctx c =
      { c with
        subjectId :=
          (match contextGainSubjectClaimed ctx with
           | some s => some s
           | none => c.subjectId)
        isExternalSubject :=
          (match contextGainExternalClaimed ctx with
           | some b => some b
           | none => c.isExternalSubject)
        geoIP :=
          (match contextGainGeoIPClaimed ctx with
           | some s => some s
           | none => c.geoIP) } := by
  obtain ⟨s, b, ip⟩ := ctx
  unfold DPCMService.augmentConsent contextGainSubjectClaimed
    contextGainExternalClaimed contextGainGeoIPClaimed
  cases s <;> cases b <;> cases ip <;>
    simp only [Context.truthyStr, Context.truthyBool] <;>
    split_ifs <;> simp_all

/-- Claim C8 (confirmed).  For every context and payload, the assessment and
metadata request builders and the consent-store augmentation add `subjectId`
exactly when `context.subjectId` is present and non-empty, add
`isExternalSubject` exactly when `context.isExternalSubject` is set (to
`true`; `false` is falsy in the guard), and add `geoIP = context.ipAddress`
exactly when `context.ipAddress` is present and non-empty; an absent or empty
context field adds nothing (no `null` placeholder — the request field stays
absent, and a consent entry keeps its own value), and every other payload
field passes through unchanged. -/
theorem c8_request_builder_frame (ctx : Context) (items : List RequestItem)
    (purposes : List String) (c : ConsentEntry) :
    (DPCMService.requestApprovalReq ctx items).items = items ∧
    (DPCMService.requestApprovalReq ctx items).subjectId = contextGainSubjectClaimed ctx ∧
    (DPCMService.requestApprovalReq ctx items).isExternalSubject =
      contextGainExternalClaimed ctx ∧
    (DPCMService.requestApprovalReq ctx items).geoIP = contextGainGeoIPClaimed ctx ∧
    (DPCMService.getConsentMetadataReq ctx purposes).purposeId = purposes ∧
    (DPCMService.getConsentMetadataReq ctx purposes).subjectId =
      contextGainSubjectClaimed ctx ∧
    (DPCMService.getConsentMetadataReq ctx purposes).isExternalSubject =
      contextGainExternalClaimed ctx ∧
    (DPCMService.getConsentMetadataReq ctx purposes).geoIP =
      contextGainGeoIPClaimed ctx ∧
    (DPCMService.augmentConsent ctx c).subjectId =
      (match contextGainSubjectClaimed ctx with
       | some s => some s
       | none => c.subjectId) ∧
    (DPCMService.augmentConsent ctx c).isExternalSubject =
      (match contextGainExternalClaimed ctx with
       | some b => some b
       | none => c.isExternalSubject) ∧
    (DPCMService.augmentConsent ctx c).geoIP =
      (match contextGainGeoIPClaimed ctx with
       | some s => some s
       | none => c.geoIP) ∧
    (DPCMService.augmentConsent ctx c).op = c.op ∧
    (DPCMService.augmentConsent ctx c).path = c.path ∧
    (DPCMService.augmentConsent ctx c).purposeId = c.purposeId ∧
    (DPCMService.augmentConsent ctx c).attributeId = c.attributeId ∧
    (DPCMService.augmentConsent ctx c).attributeValue = c.attributeValue ∧
    (DPCMService.augmentConsent ctx c).accessTypeId = c.accessTypeId ∧
    (DPCMService.augmentConsent ctx c).state = c.state ∧
    (DPCMService.augmentConsent ctx c).startTime = c.startTime ∧
    (DPCMService.augmentConsent ctx c).endTime = c.endTime := by
  rw [requestApprovalReq_eq, getConsentMetadataReq_eq, augmentConsent_eq]
  exact ⟨rfl, rfl, rfl, rfl, rfl, rfl, rfl, rfl, rfl, rfl, rfl, rfl, rfl, rfl,
    rfl, rfl, rfl, rfl, rfl, rfl⟩

/-- Counterexample to claim C6's universal "no exception ever escapes a Facade
public operation": when the transport succeeds but an assessment entry's
non-approved first result element carries no `reason` (a shape the data model
allows), the loop's `reason.messageId` access throws a `TypeError` inside the
`try` block, and the catch handler's own unguarded `error.response.data`
access re-throws — the exception escapes `Privacy.assess`. -/
theorem c6_escape_counterexample :
    Privacy.assess
        (Except.ok (AssessPayload.arr [⟨some [⟨false, none⟩]⟩]) :
          Except (CaughtError String) AssessPayload) =
      .error .typeError := rfl

/-- Claim C6 as amended: for every error raised by the transport that carries
the contract's structured `{response: {data?}}` object, `Privacy.assess` and
`Privacy.getConsentMetadata` catch it and resolve to `{status: "error"}` with
`detail` equal to the response body when present and omitted when absent, and
`Privacy.getUserConsents` (whose catch guards `error.response`) does so for
every caught error; an exception escapes only when `assess` or
`getConsentMetadata` catches an error without a `response` object, such as
the `TypeError` of `c6_escape_counterexample`. -/
theorem c6_transport_error_envelope {δ γ : Type} (e : CaughtError δ)
    (r : CaughtResponse δ) (items : List RequestItem) (h : e.response = some r) :
    Privacy.assess (Except.error e : Except (CaughtError δ) AssessPayload) =
      .ok { status := "error", detail := r.data } ∧
    Privacy.getConsentMetadata items
        (Except.error e : Except (CaughtError δ) DSPResponse) =
      .ok { status := "error", detail := r.data } ∧
    ∀ e' : CaughtError δ,
      Privacy.getUserConsents (Except.error e' : Except (CaughtError δ) γ) =
        { status := "error"
          detail :=
            match e'.response with
            | some rr => rr.data
            | none => none } := by
  have hcatch : Privacy.unguardedCatch e = .ok ("error", r.data) := by
    unfold Privacy.unguardedCatch
    rw [h]
  refine ⟨?_, ?_, ?_⟩
  · simp [Privacy.assess, hcatch]
  · simp [Privacy.getConsentMetadata, hcatch]
  · intro e'
    rfl

/-- Witness for the amended C6 at a transport error carrying body `"boom"`. -/
theorem c6_transport_error_envelope_witness :
    Privacy.assess (Except.error errWithBody : Except (CaughtError String) AssessPayload) =
      .ok { status := "error", detail := some "boom" } ∧
    Privacy.getConsentMetadata []
        (Except.error errWithBody : Except (CaughtError String) DSPResponse) =
      .ok { status := "error", detail := some "boom" } ∧
    Privacy.getUserConsents (Except.error errWithBody : Except (CaughtError String) Nat) =
      { status := "error", detail := some "boom" } := by
  have h := @c6_transport_error_envelope String Nat errWithBody ⟨some "boom"⟩ [] rfl
  exact ⟨h.1, h.2.1, by simpa using h.2.2 errWithBody⟩

theorem storeConsentsOps_eq_map (ctx : Context) (consents : List ConsentEntry) :
    DPCMService.storeConsentsOps ctx consents =
      consents.map (fun consent => ⟨"add", DPCMService.augmentConsent ctx consent⟩) := by
  unfold DPCMService.storeConsentsOps
  suffices hgen : ∀ (acc : List PatchOp),
      consents.foldl
        (fun acc consent => acc ++ [⟨"add", DPCMService.augmentConsent ctx consent⟩])
        acc =
      acc ++ consents.map
        (fun consent => ⟨"add", DPCMService.augmentConsent ctx consent⟩) by
    simpa using hgen []
  induction consents with
  | nil => intro acc; simp
  | cons c rest ih =>
    intro acc
    simp only [List.foldl_cons, List.map_cons]
    rw [ih]
    simp

/-- Counterexample to claim C7: the code has no "unless the caller specifies
an explicit update-end-time operation" branch — an entry that is itself a
`{op: "replace", path: "/abc/endTime"}` operation is still wrapped as
`{op: "add", value: entry}` — and on transport failure the `DPCM.storeConsents`
facade resolves `{status: "deny"}`, not the spec's `"error"` envelope. -/
theorem c7_storeConsents_counterexample :
    DPCMService.storeConsentsOps {} [replaceEntry] = [⟨"add", replaceEntry⟩] ∧
    replaceEntry.op = some "replace" ∧
    DPCM.storeConsents {} [replaceEntry]
        (fun _ => (Except.error errWithBody : Except (CaughtError String) Nat)) =
      .ok { status := "deny", detail := some "boom" } ∧
    ("deny" : String) ≠ "error" := by
  refine ⟨rfl, rfl, rfl, ?_⟩
  decide

/-- Claim C7 as amended: `storeConsents` augments each caller entry with the
context fields, unconditionally wraps every entry as `{op: "add", value:
entry}` (even an explicit update-end-time operation object), submits all of
them as the body of one batched PATCH to `/v1.0/privacy/consents`, and the
`DPCM` facade returns `{status: "done", response}` on success and `{status:
"deny"}` — with `detail` from the error's response body — on a transport
failure exposing a structured response. -/
theorem c7_storeConsents_behavior {δ ρ : Type} (ctx : Context)
    (consents : List ConsentEntry)
    (transport : PatchRequest → Except (CaughtError δ) ρ) :
    DPCMService.storeConsentsRequest ctx consents =
      { path := "/v1.0/privacy/consents"
        body := consents.map
          (fun consent => ⟨"add", DPCMService.augmentConsent ctx consent⟩) } ∧
    (∀ resp : ρ,
      transport (DPCMService.storeConsentsRequest ctx consents) = .ok resp →
      DPCM.storeConsents ctx consents transport =
        .ok { status := "done", response := some resp }) ∧
    (∀ (e : CaughtError δ) (r : CaughtResponse δ),
      transport (DPCMService.storeConsentsRequest ctx consents) = .error e →
      e.response = some r →
      DPCM.storeConsents ctx consents transport =
        .ok { status := "deny", detail := r.data }) := by
  refine ⟨?_, ?_, ?_⟩
  · unfold DPCMService.storeConsentsRequest
    rw [storeConsentsOps_eq_map]
  · intro resp htr
    unfold DPCM.storeConsents
    rw [htr]
  · intro e r htr hresp
    have hc : DPCM.storeConsentsCatch e =
        (.ok { status := "deny", detail := r.data } : Except JsError (StoreOutcome δ ρ)) := by
      unfold DPCM.storeConsentsCatch
      rw [hresp]
    simp [DPCM.storeConsents, htr, hc]

/-- Witness for the amended C7: one entry, a failing transport with body
`"boom"`, and a succeeding transport. -/
theorem c7_storeConsents_behavior_witness :
    (DPCMService.storeConsentsRequest {} [replaceEntry] =
      { path := "/v1.0/privacy/consents"
        body := [replaceEntry].map
          (fun consent => ⟨"add", DPCMService.augmentConsent {} consent⟩) }) ∧
    DPCM.storeConsents {} [replaceEntry]
        (fun _ => (Except.error errWithBody : Except (CaughtError String) Nat)) =
      .ok { status := "deny", detail := some "boom" } := by
  have h := c7_storeConsents_behavior {} [replaceEntry]
    (fun _ => (Except.error errWithBody : Except (CaughtError String) Nat))
  exact ⟨h.1, h.2.2 errWithBody ⟨some "boom"⟩ rfl rfl⟩

/-- Claim C3 (confirmed).  For a purpose with an explicit attributes array and
an (attribute, access type) combination whose id-based name is not in the
item-key set: when the alias built from the attribute's display name is in
the set, the filtering pass emits exactly one record for the combination and
registers it under the id-based (non-aliased) name — the emission's
registration key, the one the reconciliation lookup uses, is
`purposeID/attributeID.accessTypeID`. -/
theorem c3_alias_match_emits_one (itemSet : List String) (resp : DSPResponse)
    (purposeID : String) (purpose : Purpose) (attr : AttributeEntry)
    (accessType : AccessTypeEntry) (d : AttrDesc) (r : MetadataRecord)
    (hname : itemSet.contains (purposeID ++ "/" ++ attr.id ++ "." ++ accessType.id) = false)
    (hattr : lookupA resp.attributes attr.id = some d)
    (halias : itemSet.contains (purposeID ++ "/" ++ d.name ++ "." ++ accessType.id) = true)
    (hbuild : DPCMService.buildMetadataRecord resp purpose (some attr.id)
      accessType.id accessType.assentUIDefault accessType.legalCategory = .ok r) :
    DPCMService.emitAttrCombo itemSet resp purposeID purpose attr accessType =
      .ok [⟨purposeID, attr.id, accessType.id, r, purpose.category == "eula"⟩] ∧
    Emission.name ⟨purposeID, attr.id, accessType.id, r, purpose.category == "eula"⟩ =
      purposeID ++ "/" ++ attr.id ++ "." ++ accessType.id := by
  constructor
  · unfold DPCMService.emitAttrCombo
    rw [if_neg (by rw [hname]; simp)]
    rw [hattr]
    simp only [halias, if_true]
    rw [hbuild]
  · rfl

/-- Witness for C3 at spec property P4: the set holds
`"marketing/mobile_number.default"`, the server's attribute id `"11"` maps to
display name `"mobile_number"`, and exactly one record keyed
`"marketing/11.default"` is emitted. -/
theorem c3_alias_match_emits_one_witness :
    DPCMService.emitAttrCombo ["marketing/mobile_number.default"] respAlias
        "marketing"
        { id := "mkt", name := "Marketing", category := "default",
          attributes := some [⟨"11", [⟨"default", some true, some 3⟩]⟩],
          defaultConsentDuration := some 30,
          termsOfUse := some ⟨some "http://tou"⟩ }
        ⟨"11", [⟨"default", some true, some 3⟩]⟩ ⟨"default", some true, some 3⟩ =
      .ok [⟨"marketing", "11", "default", respAliasRecord, ("default" == "eula")⟩] ∧
    Emission.name
        ⟨"marketing", "11", "default", respAliasRecord, ("default" == "eula")⟩ =
      "marketing" ++ "/" ++ "11" ++ "." ++ "default" :=
  c3_alias_match_emits_one ["marketing/mobile_number.default"] respAlias
    "marketing" _ _ _ ⟨"mobile_number"⟩ respAliasRecord (by decide) rfl
    (by decide) rfl

/-- Claim C4 (confirmed).  A combination whose id-based name is not in the
item-key set and whose display-name alias (when the purpose carries an
attributes array) is also not in the set contributes no record and raises no
error; the same for a purpose-level combination whose name misses the set;
and a purpose all of whose combinations are filtered out contributes nothing
at all. -/
theorem c4_unmatched_combination_dropped (itemSet : List String)
    (resp : DSPResponse) (purposeID : String) (purpose : Purpose)
    (attr : AttributeEntry) (accessType : AccessTypeEntry) (d : AttrDesc)
    (hattr : lookupA resp.attributes attr.id = some d)
    (hname : itemSet.contains (purposeID ++ "/" ++ attr.id ++ "." ++ accessType.id) = false)
    (halias : itemSet.contains (purposeID ++ "/" ++ d.name ++ "." ++ accessType.id) = false) :
    DPCMService.emitAttrCombo itemSet resp purposeID purpose attr accessType =
      .ok [] ∧
    (∀ at2 : AccessTypeEntry,
      itemSet.contains (purposeID ++ "/" ++ "" ++ "." ++ at2.id) = false →
      DPCMService.emitPurposeCombo itemSet resp purposeID purpose at2 = .ok []) ∧
    (∀ attrs : List AttributeEntry, purpose.attributes = some attrs →
      (∀ a ∈ attrs, ∀ t ∈ a.accessTypes,
        DPCMService.emitAttrCombo itemSet resp purposeID purpose a t = .ok []) →
      DPCMService.purposeEmissions itemSet resp purposeID purpose = .ok []) ∧
    (purpose.attributes = none →
      (∀ t ∈ purpose.accessTypes,
        DPCMService.emitPurposeCombo itemSet resp purposeID purpose t = .ok []) →
      DPCMService.purposeEmissions itemSet resp purposeID purpose = .ok []) := by
  refine ⟨?_, ?_, ?_, ?_⟩
  · unfold DPCMService.emitAttrCombo
    rw [if_neg (by rw [hname]; simp)]
    rw [hattr]
    simp only [halias, Bool.false_eq_true, if_false]
  · intro at2 h2
    unfold DPCMService.emitPurposeCombo
    rw [if_neg (by rw [h2]; simp)]
  · intro attrs hattrs hall
    unfold DPCMService.purposeEmissions
    rw [hattrs]
    exact concatMapE_all_nil _
      (fun a ha => concatMapE_all_nil _ (fun t ht => hall a ha t ht))
  · intro hattrs hall
    unfold DPCMService.purposeEmissions
    rw [hattrs]
    exact concatMapE_all_nil _ hall

/-- Witness for C4 at spec property P3: with the set holding only
`"marketing/11.default"`, the server combination for attribute `"3"` (display
name `"postal_code"`) is silently dropped, and the purpose contributes
nothing. -/
theorem c4_unmatched_combination_dropped_witness :
    DPCMService.emitAttrCombo ["marketing/11.default"] respFilter "marketing"
        { id := "mkt", name := "Marketing", category := "default",
          attributes := some [⟨"3", [⟨"default", none, none⟩]⟩] }
        ⟨"3", [⟨"default", none, none⟩]⟩ ⟨"default", none, none⟩ = .ok [] ∧
    DPCMService.purposeEmissions ["marketing/11.default"] respFilter "marketing"
        { id := "mkt", name := "Marketing", category := "default",
          attributes := some [⟨"3", [⟨"default", none, none⟩]⟩] } = .ok [] := by
  have h := c4_unmatched_combination_dropped ["marketing/11.default"] respFilter
    "marketing"
    { id := "mkt", name := "Marketing", category := "default",
      attributes := some [⟨"3", [⟨"default", none, none⟩]⟩] }
    ⟨"3", [⟨"default", none, none⟩]⟩ ⟨"default", none, none⟩ ⟨"postal_code"⟩
    rfl (by decide) (by decide)
  refine ⟨h.1, h.2.2.1 [⟨"3", [⟨"default", none, none⟩]⟩] rfl ?_⟩
  intro a ha t ht
  simp at ha
  subst ha
  simp at ht
  subst ht
  exact h.1

/-- Claim C5 (confirmed).  Every record built by the filtering pass starts
with status `"NONE"`; the normalizer's result buckets are exactly the
reconciled emission list; and after the reconciliation fold each position
either still holds its original emission or was updated by some consent
record of the response whose lookup key (missing `attributeId` /
`accessTypeId` defaulting to the empty string) equals the name under which
the record was registered — in which case the record's status is `"ACTIVE"`
exactly when the consent's `status` field equals `1` and `"EXPIRED"`
otherwise, its `consent` is that consent record, and its `consentType` is the
consent's `state`; no update ever writes `"NONE"` back. -/
theorem c5_status_reconciliation (itemSet : List String) (resp : DSPResponse)
    (es : List Emission)
    (h : DPCMService.filterPass itemSet resp = .ok es) :
    (∀ e ∈ es, e.record.status = "NONE") ∧
    DPCMService.processConsentMetadata itemSet resp =
      .ok
        { eula := ((List.foldl DPCMService.reconcileStep es resp.consents).filter
            (·.eula)).map (·.record)
          dflt := ((List.foldl DPCMService.reconcileStep es resp.consents).filter
            (fun e => !e.eula)).map (·.record) } ∧
    (List.foldl DPCMService.reconcileStep es resp.consents).length = es.length ∧
    (∀ (i : Nat) (x y : Emission),
      (List.foldl DPCMService.reconcileStep es resp.consents)[i]? = some x →
      es[i]? = some y →
      x = y ∨
      ∃ c : ConsentRecord, (∃ cid, (cid, c) ∈ resp.consents) ∧
        DPCMService.consentName c = y.name ∧
        x = DPCMService.applyConsent c y ∧
        x.record.status = (if c.status == 1 then "ACTIVE" else "EXPIRED") ∧
        x.record.consent = some c ∧
        x.record.consentType = some c.state) := by
  have hbase : ∀ (i : Nat) (x y : Emission), es[i]? = some x → es[i]? = some y →
      x = y ∨ ∃ c, (∃ cid, (cid, c) ∈ resp.consents) ∧
        DPCMService.consentName c = y.name ∧ x = DPCMService.applyConsent c y := by
    intro i x y hx hy
    rw [hx] at hy
    exact Or.inl (Option.some.inj hy)
  rcases reconcile_foldl_inv resp.consents es resp.consents (fun q hq => hq) es rfl
    hbase with ⟨hlen, hinv⟩
  refine ⟨fun e he => (filterPass_shape h e he).1, ?_, hlen, ?_⟩
  · unfold DPCMService.processConsentMetadata
    rw [h]
  · intro i x y hx hy
    rcases hinv i x y hx hy with heq | ⟨c, hcmem, hnm, happ⟩
    · exact Or.inl heq
    · subst happ
      exact Or.inr ⟨c, hcmem, hnm, rfl, rfl, rfl, rfl⟩

/-- Witness for C5 on `respAlias`: the single registered record starts
`"NONE"`, its name matches the consent key, and reconciliation marks it
`"ACTIVE"` with the consent attached. -/
theorem c5_status_reconciliation_witness :
    (∀ e ∈ [respAliasEmission], e.record.status = "NONE") ∧
    DPCMService.processConsentMetadata ["marketing/mobile_number.default"] respAlias =
      .ok
        { eula := ((List.foldl DPCMService.reconcileStep [respAliasEmission]
            respAlias.consents).filter (·.eula)).map (·.record)
          dflt := ((List.foldl DPCMService.reconcileStep [respAliasEmission]
            respAlias.consents).filter (fun e => !e.eula)).map (·.record) } ∧
    (List.foldl DPCMService.reconcileStep [respAliasEmission]
      respAlias.consents).length = [respAliasEmission].length ∧
    (∀ (i : Nat) (x y : Emission),
      (List.foldl DPCMService.reconcileStep [respAliasEmission]
        respAlias.consents)[i]? = some x →
      [respAliasEmission][i]? = some y →
      x = y ∨
      ∃ c : ConsentRecord, (∃ cid, (cid, c) ∈ respAlias.consents) ∧
        DPCMService.consentName c = y.name ∧
        x = DPCMService.applyConsent c y ∧
        x.record.status = (if c.status == 1 then "ACTIVE" else "EXPIRED") ∧
        x.record.consent = some c ∧
        x.record.consentType = some c.state) :=
  c5_status_reconciliation ["marketing/mobile_number.default"] respAlias
    [respAliasEmission] rfl

/-- Counterexample to claim C10 as stated: with access-type id `"y."`
(concrete and non-empty) and a consent for attribute `"x.y"` with no
`accessTypeId` field, the consent's key `"p/x.y."` ends in `"."` yet equals
the registered name `"p/x.y."` (purpose `"p"`, attribute `"x"`, access type
`"y."`), so the reconciliation pass does change a registered record — its
status becomes `"ACTIVE"` instead of staying `"NONE"`. -/
theorem c10_dotted_counterexample :
    (DPCMService.processConsentMetadata ["p/x.y."] respDotted).map
        (fun m => m.dflt.map (·.status)) = .ok ["ACTIVE"] ∧
    (respDotted.consents.map (fun p => p.2.accessTypeId)) = [none] := ⟨rfl, rfl⟩

/-- Claim C10 as amended: provided every access-type id the response's
filtering pass can use is non-empty and contains no `'.'`, a consent record
with no `accessTypeId` field gets a lookup key ending in `"."`, which can
never equal a registered name (those end in the access-type id), so its
reconciliation step leaves the whole state unchanged — regardless of which
consents were already processed. -/
theorem c10_consent_without_accessType_ignored (itemSet : List String)
    (resp : DSPResponse) (es : List Emission)
    (h : DPCMService.filterPass itemSet resp = .ok es)
    (hclean : ∀ atId ∈ responseAccessTypeIds resp,
      atId ≠ "" ∧ ∀ ch ∈ atId.data, ch ≠ '.')
    (cid : String) (c : ConsentRecord) (hc : c.accessTypeId = none)
    (handled : List (String × ConsentRecord)) :
    DPCMService.reconcileStep
        (List.foldl DPCMService.reconcileStep es handled) (cid, c) =
      List.foldl DPCMService.reconcileStep es handled := by
  have hP : ∀ e ∈ List.foldl DPCMService.reconcileStep es handled,
      e.atId ≠ "" ∧ ∀ ch ∈ e.atId.data, ch ≠ '.' := by
    refine reconcile_foldl_pred _ ?_ handled es ?_
    · intro c' e he
      exact he
    · intro e he
      exact hclean e.atId (filterPass_shape h e he).2
  by_cases hcid : ((cid, c).1 == "") = true
  · exact reconcileStep_skip _ _ hcid
  · refine reconcileStep_nomatch _ _ (Bool.eq_false_iff.mpr hcid) ?_
    refine lastIdx_eq_none ?_
    intro e he
    exact emission_name_ne_consent_key e (hP e he).1 (hP e he).2 c hc

/-- Witness for the amended C10 on `respNoAccess` (clean access-type id
`"default"`): the consent lacking `accessTypeId` leaves the registered
emission untouched. -/
theorem c10_consent_without_accessType_ignored_witness :
    DPCMService.reconcileStep
        (List.foldl DPCMService.reconcileStep [respAliasEmission] [])
        ("c2", ⟨"marketing", some "11", none, 1, 3⟩) =
      List.foldl DPCMService.reconcileStep [respAliasEmission] [] :=
  c10_consent_without_accessType_ignored ["marketing/mobile_number.default"]
    respNoAccess [respAliasEmission] rfl (by decide) "c2"
    ⟨"marketing", some "11", none, 1, 3⟩ rfl []
